import Mathlib

/-!
Shallow embedding of the review-processing pipeline
(`src/backend/review_processor.py`, class `ReviewProcessor`) and proofs of
the specified properties of its text normalizer, summarizer post-processing,
structured extractor, validator and batch orchestrator.

Python strings are modelled as Lean `String` / `List Char`; Python dicts as
ordered association lists with distinct keys; the LLM endpoint
(`requests.post` + response body) and `json.loads` as explicit functional
parameters (`Except` for calls that can raise).
-/

namespace ReviewProc

/-! ## Character classes used by `clean_text`

`clean_text` relies on Python's Unicode-aware regex classes.  The decision
tables below embed those classes over the code-point ranges exercised by
this repository (ASCII, Latin, Greek, Cyrillic, kana, CJK, Hangul, the
whitespace table, and the emoji ranges enumerated in the source); code
points outside the listed ranges are treated as plain removable symbols. -/

/-- The emoji code-point ranges of `emoji_pattern` in `clean_text`
(source lines 73-86), one disjunct per range literal. -/
def isEmojiRange (c : Char) : Bool :=
  let n := c.toNat
  (0x1F600 ≤ n && n ≤ 0x1F64F) ||
  (0x1F300 ≤ n && n ≤ 0x1F5FF) ||
  (0x1F680 ≤ n && n ≤ 0x1F6FF) ||
  (0x1F1E0 ≤ n && n ≤ 0x1F1FF) ||
  (0x1F900 ≤ n && n ≤ 0x1F9FF) ||
  (0x1FA00 ≤ n && n ≤ 0x1FA6F) ||
  (0x1FA70 ≤ n && n ≤ 0x1FAFF) ||
  (0x2600 ≤ n && n ≤ 0x26FF) ||
  (0x2700 ≤ n && n ≤ 0x27BF)

/-- Python's `str.isalnum` (equivalently, regex `\w` without the underscore),
restricted to letter/digit code-point ranges: ASCII digits and letters,
Latin-1 and Latin Extended letters, Greek, Cyrillic, Hiragana, Katakana,
CJK Unified Ideographs and Hangul syllables. -/
def pyAlnum (c : Char) : Bool :=
  let n := c.toNat
  (0x30 ≤ n && n ≤ 0x39) || (0x41 ≤ n && n ≤ 0x5A) || (0x61 ≤ n && n ≤ 0x7A) ||
  (0xC0 ≤ n && n ≤ 0xD6) || (0xD8 ≤ n && n ≤ 0xF6) || (0xF8 ≤ n && n ≤ 0x24F) ||
  (0x391 ≤ n && n ≤ 0x3A1) || (0x3A3 ≤ n && n ≤ 0x3C9) ||
  (0x400 ≤ n && n ≤ 0x4FF) ||
  (0x3041 ≤ n && n ≤ 0x3096) || (0x30A1 ≤ n && n ≤ 0x30FA) ||
  (0x4E00 ≤ n && n ≤ 0x9FFF) ||
  (0xAC00 ≤ n && n ≤ 0xD7A3)

/-- Python's regex `\w` with `re.UNICODE`: alphanumeric or underscore. -/
def pyWordChar (c : Char) : Bool :=
  pyAlnum c || c = '_'

/-- Python's regex `\s` / `str.isspace`: ASCII whitespace controls plus the
Unicode whitespace code points. -/
def pySpace (c : Char) : Bool :=
  let n := c.toNat
  c = ' ' || c = '\t' || c = '\n' || c = '\r' ||
  n = 0x0B || n = 0x0C || (0x1C ≤ n && n ≤ 0x1F) || n = 0x85 || n = 0xA0 ||
  n = 0x1680 || (0x2000 ≤ n && n ≤ 0x200A) || n = 0x2028 || n = 0x2029 ||
  n = 0x202F || n = 0x205F || n = 0x3000

/-- The punctuation kept by `clean_text`'s character filter: the literal
class `.,!?;:'"-` of the regex on source line 91 (`Char.ofNat 39` is the
apostrophe, `Char.ofNat 34` the double quote). -/
def keptPunct (c : Char) : Bool :=
  c = '.' || c = ',' || c = '!' || c = '?' || c = ';' || c = ':' ||
  c = Char.ofNat 39 || c = Char.ofNat 34 || c = '-'

/-- A character surviving the filter `re.sub(r'[^\w\s.,!?;:\x27\x22-]', '', text)`
on source line 91: word character, whitespace, or kept punctuation. -/
def allowedChar (c : Char) : Bool :=
  pyWordChar c || pySpace c || keptPunct c

/-! ## Whitespace collapsing and stripping -/

/-- One pass of `re.sub(r'\s+', ' ', text)` (source line 94): each maximal
run of whitespace becomes a single ASCII space.  The flag records whether
the previous character was part of a whitespace run. -/
def collapseAux : Bool → List Char → List Char
  | _, [] => []
  | prevSpace, c :: cs =>
    if pySpace c then
      if prevSpace then collapseAux true cs
      else ' ' :: collapseAux true cs
    else c :: collapseAux false cs

/-- Embeds `re.sub(r'\s+', ' ', text)` on a character list. -/
def collapseWs (cs : List Char) : List Char :=
  collapseAux false cs

/-- Remove trailing whitespace (the right half of Python `str.strip`). -/
def dropTrailing (cs : List Char) : List Char :=
  (cs.reverse.dropWhile pySpace).reverse

/-- Python `str.strip()` on a character list: remove trailing, then
leading, whitespace. -/
def stripList (cs : List Char) : List Char :=
  (dropTrailing cs).dropWhile pySpace

/-- Python `str.strip()`. -/
def pyStrip (s : String) : String :=
  String.mk (stripList s.data)

/-! ## `ReviewProcessor.concatenate_review_text` and `clean_text` -/

/-- Embeds `concatenate_review_text` (source lines 40-56): `None` becomes the
empty string, the two parts are joined with a single space, and the result
is stripped. -/
def concatenate_review_text (title body : Option String) : String :=
  pyStrip (title.getD "" ++ " " ++ body.getD "")

/-- The character-list core of `clean_text` (source lines 71-97): remove
emoji-range characters, remove disallowed characters, collapse whitespace
runs to single spaces, and strip. -/
def cleanChars (cs : List Char) : List Char :=
  stripList (collapseWs ((cs.filter (fun c => !isEmojiRange c)).filter allowedChar))

/-- Embeds `clean_text` (source lines 58-99): `None` and the empty string map to
`""` (the `if not text` guard); otherwise the four cleaning passes run. -/
def clean_text : Option String → String
  | Option.none => ""
  | some s => if s = "" then "" else String.mk (cleanChars s.data)

/-! ## Structure of collapsed and stripped text -/

/-- No two adjacent whitespace characters. -/
def noDS : List Char → Bool
  | a :: b :: rest => (!(pySpace a && pySpace b)) && noDS (b :: rest)
  | _ => true

/-- The head, when present, is not whitespace. -/
def headNotSpace (l : List Char) : Bool :=
  match l.head? with
  | some h => !pySpace h
  | Option.none => true

/-! ## `ReviewProcessor.summarize_with_ollama`

The HTTP call (`requests.post` + `raise_for_status` + `response.json()`)
is modelled by an `Except String String` argument: `Except.ok raw` is the
endpoint's generated text on success, `Except.error e` a transport or
status failure (`requests.exceptions.RequestException`), which the source
re-raises. -/

/-- Python `str.split`, splitting a character list at every occurrence of
the newline character; the empty string yields one empty field. -/
def splitNlChars : List Char → List (List Char)
  | [] => [[]]
  | c :: rest =>
      let r := splitNlChars rest
      if c = '\n' then [] :: r
      else
        match r with
        | [] => [[c]]
        | h :: t => (c :: h) :: t

/-- Python `summary.split('\n')`. -/
def splitNl (s : String) : List String :=
  (splitNlChars s.data).map String.mk

/-- The success-path post-processing of the raw model response (source
lines 141-147): strip the response, split on newline, take the first
`max_lines` lines, keep the trimmed non-blank lines, rejoin with newline. -/
def clampSummary (raw : String) (maxLines : Nat) : String :=
  let summary := pyStrip raw
  let lines := splitNl summary
  String.intercalate "\n"
    ((lines.take maxLines).filterMap (fun line =>
      let t := pyStrip line
      if t = "" then Option.none else some t))

/-- Embeds `summarize_with_ollama` (source lines 101-154): empty/whitespace-only
input short-circuits to `""` without touching the endpoint; endpoint
failure propagates (re-raise); success is post-processed by
`clampSummary`. -/
def summarize_with_ollama (text : String) (maxLines : Nat)
    (response : Except String String) : Except String String :=
  if pyStrip text = "" then Except.ok ""
  else
    match response with
    | Except.error e => Except.error e
    | Except.ok raw => Except.ok (clampSummary raw maxLines)

/-- The trimmed non-blank lines of the raw model response, in order. -/
def nonBlankTrimmedLines (raw : String) : List String :=
  (splitNl (pyStrip raw)).filterMap (fun line =>
    let t := pyStrip line
    if t = "" then Option.none else some t)

/-! ## Records (Python dicts)

A record is an ordered association list with pairwise-distinct keys; the
values carry the payload types that flow through the pipeline.
`DVal.none` is Python `None`. -/

inductive DVal where
  | str (s : String)
  | int (n : Int)
  | bool (b : Bool)
  | none
  deriving DecidableEq, Repr

/-- A Python dict, as fed to and produced by the orchestrator. -/
abbrev PyRec := List (String × DVal)

/-- Embeds `d.get(k, default)`. -/
def getD (r : PyRec) (k : String) (d : DVal) : DVal :=
  match r.find? (fun p => p.1 == k) with
  | some p => p.2
  | Option.none => d

/-- Embeds `k in d`. -/
def hasKey (r : PyRec) (k : String) : Bool :=
  (r.find? (fun p => p.1 == k)).isSome

/-- Embeds `d[k] = v` (also the effect of `{**d, k: v}`): overwrite in place if
the key exists, else append. -/
def setKey : PyRec → String → DVal → PyRec
  | [], k, v => [(k, v)]
  | (k0, v0) :: rest, k, v =>
    if k0 == k then (k, v) :: rest
    else (k0, v0) :: setKey rest k v

/-- Python truthiness of a record value. -/
def truthy : DVal → Bool
  | DVal.str s => !(s == "")
  | DVal.int n => !(n == 0)
  | DVal.bool b => b
  | DVal.none => false

/-- Python `str()` of a record value. -/
def pyStrOf : DVal → String
  | DVal.str s => s
  | DVal.int n => toString n
  | DVal.bool true => "True"
  | DVal.bool false => "False"
  | DVal.none => "None"

/-- Embeds `v or ""` followed by string interpolation, as applied to the values
fetched in `process_review` and fed to `concatenate_review_text`. -/
def pyOrEmpty (v : DVal) : String :=
  if truthy v then pyStrOf v else ""

/-! ## `ReviewProcessor.process_review` and `process_multiple_reviews`

`summ` models the bound method `self.summarize_with_ollama` applied to the
cleaned text: `Except.ok s` is a returned summary, `Except.error e` an
exception with message `e` (caught by `except Exception` on source line
189). -/

/-- Embeds `process_review` (source lines 156-194). -/
def process_review (summ : String → Except String String)
    (review_data : PyRec) (summarize : Bool) : PyRec :=
  let title := getD review_data "title" (DVal.str "")
  let body := getD review_data "selftext" (DVal.str "")
  let concatenated := concatenate_review_text (some (pyOrEmpty title)) (some (pyOrEmpty body))
  let cleaned := clean_text (some concatenated)
  let result := setKey (setKey review_data "concatenated_text" (DVal.str concatenated))
    "cleaned_text" (DVal.str cleaned)
  if summarize && !(cleaned == "") then
    match summ cleaned with
    | Except.ok summary => setKey result "summary" (DVal.str summary)
    | Except.error e =>
        setKey (setKey result "summary" DVal.none) "summary_error" (DVal.str e)
  else result

/-- Embeds `process_multiple_reviews` (source lines 196-222), with the per-record
call `self.process_review(review, summarize=summarize)` abstracted as
`proc` (`Except.error e` models an exception raised by that call and
caught on source line 214); the accumulator mirrors the
`processed_reviews.append` loop. -/
def processLoop (proc : PyRec → Except String PyRec)
    (acc : List PyRec) : List PyRec → List PyRec
  | [] => acc
  | review :: rest =>
      processLoop proc
        (acc ++ [match proc review with
                 | Except.ok processed => processed
                 | Except.error e => setKey review "processing_error" (DVal.str e)])
        rest

/-- Embeds `process_multiple_reviews`: run the loop from an empty accumulator. -/
def process_multiple_reviews (proc : PyRec → Except String PyRec)
    (reviews : List PyRec) : List PyRec :=
  processLoop proc [] reviews

/-! ## JSON values and the structured record

`JVal` models the values `json.loads` can produce inside a parsed JSON
object (numbers restricted to integers; floating point is out of scope).
`StructuredRecord` is the fixed output schema of the extractor; the
optional `extraction_error` field models the dynamically attached
`result['extraction_error']` key. -/

inductive JVal where
  | str (s : String)
  | int (n : Int)
  | bool (b : Bool)
  | null
  | arr (xs : List JVal)
  | obj (kvs : List (String × JVal))

/-! Python `repr` of a parsed JSON value (string escaping not modelled:
the strings flowing through this pipeline are quote-free). -/

mutual

/-- Embeds `repr(value)` for a parsed JSON value. -/
def pyReprJ : JVal → String
  | JVal.str s => "'" ++ s ++ "'"
  | JVal.int n => toString n
  | JVal.bool true => "True"
  | JVal.bool false => "False"
  | JVal.null => "None"
  | JVal.arr xs => "[" ++ pyReprArr xs ++ "]"
  | JVal.obj kvs => "\x7b" ++ pyReprObj kvs ++ "\x7d"

/-- Embeds `repr` of a JSON array body. -/
def pyReprArr : List JVal → String
  | [] => ""
  | [x] => pyReprJ x
  | x :: y :: rest => pyReprJ x ++ ", " ++ pyReprArr (y :: rest)

/-- Embeds `repr` of a JSON object body. -/
def pyReprObj : List (String × JVal) → String
  | [] => ""
  | [(k, v)] => "'" ++ k ++ "': " ++ pyReprJ v
  | (k, v) :: y :: rest => "'" ++ k ++ "': " ++ pyReprJ v ++ ", " ++ pyReprObj (y :: rest)
end

/-- Python `str()` of a parsed JSON value, as applied by
`_validate_structured_info`. -/
def pyStrJ : JVal → String
  | JVal.str s => s
  | JVal.int n => toString n
  | JVal.bool true => "True"
  | JVal.bool false => "False"
  | JVal.null => "None"
  | JVal.arr xs => pyReprJ (JVal.arr xs)
  | JVal.obj kvs => pyReprJ (JVal.obj kvs)

/-- Lookup in a parsed JSON object (`k in info` / `info[k]`). -/
def jGet (info : List (String × JVal)) (k : String) : Option JVal :=
  (info.find? (fun p => p.1 == k)).map (fun p => p.2)

/-- The extractor's fixed output schema.  The four `env_*` fields are the
four keys of the nested `test_environment` mapping. -/
structure StructuredRecord where
  product_or_service_name : String
  key_point_description : String
  key_pain_point : String
  sentiment : String
  test_steps : List String
  env_os : String
  env_software_version : String
  env_product_model : String
  env_other : String
  extraction_error : Option String
  deriving DecidableEq, Repr

/-- Embeds `_get_empty_structured_info` (source lines 322-341). -/
def _get_empty_structured_info : StructuredRecord :=
  { product_or_service_name := "Not specified"
    key_point_description := ""
    key_pain_point := ""
    sentiment := "Unknown"
    test_steps := []
    env_os := "Not specified"
    env_software_version := "Not specified"
    env_product_model := "Not specified"
    env_other := "Not specified"
    extraction_error := Option.none }

/-! Each `if 'key' in info:` block of `_validate_structured_info`
(source lines 343-381) becomes one update function; the validator is
their sequential composition starting from the defaults. -/

/-- Source lines 357-358. -/
def updProduct (info : List (String × JVal)) (v : StructuredRecord) : StructuredRecord :=
  match jGet info "product_or_service_name" with
  | some x => { v with product_or_service_name := pyStrJ x }
  | Option.none => v

/-- Source lines 360-361. -/
def updDesc (info : List (String × JVal)) (v : StructuredRecord) : StructuredRecord :=
  match jGet info "key_point_description" with
  | some x => { v with key_point_description := pyStrJ x }
  | Option.none => v

/-- Source lines 363-364. -/
def updPain (info : List (String × JVal)) (v : StructuredRecord) : StructuredRecord :=
  match jGet info "key_pain_point" with
  | some x => { v with key_pain_point := pyStrJ x }
  | Option.none => v

/-- Source lines 366-367. -/
def updSentiment (info : List (String × JVal)) (v : StructuredRecord) : StructuredRecord :=
  match jGet info "sentiment" with
  | some x => { v with sentiment := pyStrJ x }
  | Option.none => v

/-- Source lines 369-373: a list is stringified element-wise, any other
present value is wrapped as a one-element list. -/
def updSteps (info : List (String × JVal)) (v : StructuredRecord) : StructuredRecord :=
  match jGet info "test_steps" with
  | some (JVal.arr xs) => { v with test_steps := xs.map pyStrJ }
  | some x => { v with test_steps := [pyStrJ x] }
  | Option.none => v

/-- The body of the `test_environment` block (source lines 377-379): the
`for key in ['os', 'software_version', 'product_model', 'other']` loop,
unrolled; each recognized key present in `env` overwrites its field. -/
def updEnvFields (env : List (String × JVal)) (v : StructuredRecord) : StructuredRecord :=
  let v := match jGet env "os" with
    | some x => { v with env_os := pyStrJ x }
    | Option.none => v
  let v := match jGet env "software_version" with
    | some x => { v with env_software_version := pyStrJ x }
    | Option.none => v
  let v := match jGet env "product_model" with
    | some x => { v with env_product_model := pyStrJ x }
    | Option.none => v
  let v := match jGet env "other" with
    | some x => { v with env_other := pyStrJ x }
    | Option.none => v
  v

/-- Source lines 375-379: only when `test_environment` is present and is a
mapping are the four recognized keys copied; other keys are ignored. -/
def updEnv (info : List (String × JVal)) (v : StructuredRecord) : StructuredRecord :=
  match jGet info "test_environment" with
  | some (JVal.obj env) => updEnvFields env v
  | _ => v

/-- Embeds `_validate_structured_info` (source lines 343-381): defaults first,
then each recognized key conditionally overwrites its field. -/
def _validate_structured_info (info : List (String × JVal)) : StructuredRecord :=
  updEnv info (updSteps info (updSentiment info (updPain info (updDesc info
    (updProduct info _get_empty_structured_info)))))

/-! ## `ReviewProcessor.extract_structured_info`

`parse` models `json.loads` restricted to JSON objects (the prompt
instructs the model to return only a JSON object): `Except.ok kvs` is a
successfully parsed object, `Except.error msg` a `json.JSONDecodeError`
with message `msg`.  `response` models the endpoint call as in
`summarize_with_ollama`. -/

/-- Embeds `str.find` (source line 290): index of the first occurrence, or -1. -/
def pyFind (cs : List Char) (c : Char) : Int :=
  match cs.indexOf? c with
  | some i => (i : Int)
  | Option.none => -1

/-- Embeds `str.rfind` (source line 291): index of the last occurrence, or -1. -/
def pyRfind (cs : List Char) (c : Char) : Int :=
  match cs.reverse.indexOf? c with
  | some i => (cs.length : Int) - 1 - i
  | Option.none => -1

/-- Source lines 290-294: the slice from the first opening brace to the
last closing brace, when `json_start >= 0 and json_end > json_start`. -/
def jsonSlice (s : String) : Option String :=
  let cs := s.data
  let json_start := pyFind cs (Char.ofNat 123)
  let json_end := pyRfind cs (Char.ofNat 125) + 1
  if 0 ≤ json_start ∧ json_start < json_end then
    some (String.mk ((cs.drop json_start.toNat).take (json_end - json_start).toNat))
  else
    Option.none

/-- Embeds `extract_structured_info` (source lines 224-320).  The
`requests.exceptions.RequestException` handler (lines 311-315) produces
the `API error` record; a `json.JSONDecodeError` from either parse
attempt is caught on line 303 and produces the `JSON parsing error`
record. -/
def extract_structured_info (parse : String → Except String (List (String × JVal)))
    (summary : String) (response : Except String String) : StructuredRecord :=
  if pyStrip summary = "" then _get_empty_structured_info
  else
    match response with
    | Except.error e =>
        { _get_empty_structured_info with extraction_error := some ("API error: " ++ e) }
    | Except.ok raw =>
        let llm_response := pyStrip raw
        match jsonSlice llm_response with
        | some json_str =>
            match parse json_str with
            | Except.ok info => _validate_structured_info info
            | Except.error msg =>
                { _get_empty_structured_info with
                    extraction_error := some ("JSON parsing error: " ++ msg) }
        | Option.none =>
            match parse llm_response with
            | Except.ok info => _validate_structured_info info
            | Except.error msg =>
                { _get_empty_structured_info with
                    extraction_error := some ("JSON parsing error: " ++ msg) }

/-- The concatenated text computed by `process_review` for record `r`. -/
def pr_concat (r : PyRec) : String :=
  concatenate_review_text (some (pyOrEmpty (getD r "title" (DVal.str ""))))
    (some (pyOrEmpty (getD r "selftext" (DVal.str ""))))

/-- The cleaned text computed by `process_review` for record `r`. -/
def pr_cleaned (r : PyRec) : String :=
  clean_text (some (pr_concat r))

/-- The record built on source lines 178-182: original fields plus
`concatenated_text` and `cleaned_text`. -/
def pr_base (r : PyRec) : PyRec :=
  setKey (setKey r "concatenated_text" (DVal.str (pr_concat r)))
    "cleaned_text" (DVal.str (pr_cleaned r))

/-- A `json.loads` stub for settling C2: the brace-delimited substring
fails to parse, while the surrounding whole response parses as a JSON
object. -/
def parseStub : String → Except String (List (String × JVal)) :=
  fun s => if s = "\x7bab\x7d" then Except.error "bad" else Except.ok []

theorem noDS_tail {a : Char} {l : List Char} (h : noDS (a :: l) = true) :
    noDS l = true := by
  cases l with
  | nil => rfl
  | cons b rest => simp only [noDS, Bool.and_eq_true] at h; exact h.2

theorem noDS_cons_left {a : Char} {l : List Char} (ha : pySpace a = false)
    (h : noDS l = true) : noDS (a :: l) = true := by
  cases l with
  | nil => rfl
  | cons b rest => simp only [noDS, Bool.and_eq_true, Bool.not_eq_true', Bool.and_eq_false_iff]
                   exact ⟨Or.inl ha, h⟩

theorem noDS_cons_right {a : Char} {l : List Char} (hl : headNotSpace l = true)
    (h : noDS l = true) : noDS (a :: l) = true := by
  cases l with
  | nil => rfl
  | cons b rest =>
      simp only [headNotSpace, List.head?_cons, Bool.not_eq_true'] at hl
      simp only [noDS, Bool.and_eq_true, Bool.not_eq_true', Bool.and_eq_false_iff]
      exact ⟨Or.inr hl, h⟩

theorem noDS_head_of_space {a : Char} {l : List Char} (ha : pySpace a = true)
    (h : noDS (a :: l) = true) : headNotSpace l = true := by
  cases l with
  | nil => rfl
  | cons b rest =>
      simp only [noDS, Bool.and_eq_true, Bool.not_eq_true', Bool.and_eq_false_iff] at h
      rcases h.1 with hb | hb
      · rw [ha] at hb; cases hb
      · simp only [headNotSpace, List.head?_cons, Bool.not_eq_true']; exact hb

theorem noDS_append_right {l t : List Char} (h : noDS (l ++ t) = true) :
    noDS t = true := by
  induction l with
  | nil => exact h
  | cons a ls ih => exact ih (noDS_tail h)

theorem noDS_append_left {l t : List Char} (h : noDS (l ++ t) = true) :
    noDS l = true := by
  induction l with
  | nil => rfl
  | cons a ls ih =>
      cases ls with
      | nil => rfl
      | cons b ls2 =>
          simp only [List.cons_append, noDS, Bool.and_eq_true] at h ⊢
          exact ⟨h.1, ih h.2⟩

/-! ## Facts about `collapseAux` -/

theorem headNotSpace_collapseAux_true (l : List Char) :
    headNotSpace (collapseAux true l) = true := by
  induction l with
  | nil => rfl
  | cons c cs ih =>
      by_cases hc : pySpace c = true
      · simp only [collapseAux, hc, if_true]; exact ih
      · simp only [Bool.not_eq_true] at hc
        simp only [collapseAux, hc, Bool.false_eq_true, if_false, headNotSpace,
          List.head?_cons, hc, Bool.not_false]

theorem noDS_collapseAux (l : List Char) : ∀ b, noDS (collapseAux b l) = true := by
  induction l with
  | nil => intro b; rfl
  | cons c cs ih =>
      intro b
      by_cases hc : pySpace c = true
      · cases b with
        | true => simp only [collapseAux, hc, if_true]; exact ih true
        | false =>
            simp only [collapseAux, hc, if_true]
            exact noDS_cons_right (headNotSpace_collapseAux_true cs) (ih true)
      · simp only [Bool.not_eq_true] at hc
        simp only [collapseAux, hc, Bool.false_eq_true, if_false]
        exact noDS_cons_left hc (ih false)

theorem mem_collapseAux {c : Char} {l : List Char} :
    ∀ {b}, c ∈ collapseAux b l → c = ' ' ∨ (c ∈ l ∧ pySpace c = false) := by
  induction l with
  | nil => intro b h; simp [collapseAux] at h
  | cons a cs ih =>
      intro b h
      by_cases ha : pySpace a = true
      · cases b with
        | true =>
            rw [show collapseAux true (a :: cs) = collapseAux true cs from by
              simp [collapseAux, ha]] at h
            rcases ih h with h1 | h2
            · exact Or.inl h1
            · exact Or.inr ⟨List.mem_cons_of_mem a h2.1, h2.2⟩
        | false =>
            rw [show collapseAux false (a :: cs) = ' ' :: collapseAux true cs from by
              simp [collapseAux, ha]] at h
            rcases List.mem_cons.mp h with h1 | h1
            · exact Or.inl h1
            · rcases ih h1 with h2 | h3
              · exact Or.inl h2
              · exact Or.inr ⟨List.mem_cons_of_mem a h3.1, h3.2⟩
      · rw [Bool.not_eq_true] at ha
        rw [show collapseAux b (a :: cs) = a :: collapseAux false cs from by
          simp [collapseAux, ha]] at h
        rcases List.mem_cons.mp h with h1 | h1
        · subst h1; exact Or.inr ⟨List.mem_cons_self c cs, ha⟩
        · rcases ih h1 with h2 | h3
          · exact Or.inl h2
          · exact Or.inr ⟨List.mem_cons_of_mem a h3.1, h3.2⟩

theorem collapseAux_eq_self {l : List Char} :
    ∀ {b}, (∀ c ∈ l, pySpace c = true → c = ' ') → noDS l = true →
    (b = true → headNotSpace l = true) → collapseAux b l = l := by
  induction l with
  | nil => intro b _ _ _; rfl
  | cons c cs ih =>
      intro b hsp hds hb
      by_cases hc : pySpace c = true
      · have hb' : b = false := by
          cases b with
          | false => rfl
          | true =>
              have hthis := hb rfl
              simp only [headNotSpace, List.head?_cons, Bool.not_eq_true', hc] at hthis
              exact hthis
        subst hb'
        have hc' : c = ' ' := hsp c (List.mem_cons_self c cs) hc
        rw [show collapseAux false (c :: cs) = ' ' :: collapseAux true cs from by
          simp [collapseAux, hc]]
        rw [← hc']
        congr 1
        exact ih (fun d hd => hsp d (List.mem_cons_of_mem c hd)) (noDS_tail hds)
          (fun _ => noDS_head_of_space hc hds)
      · rw [Bool.not_eq_true] at hc
        rw [show collapseAux b (c :: cs) = c :: collapseAux false cs from by
          simp [collapseAux, hc]]
        congr 1
        exact ih (fun d hd => hsp d (List.mem_cons_of_mem c hd)) (noDS_tail hds)
          (fun h => by cases h)

/-! ## Facts about `dropWhile`, `dropTrailing`, `stripList` -/

theorem mem_of_mem_dropWhile {c : Char} {p : Char → Bool} {l : List Char}
    (h : c ∈ l.dropWhile p) : c ∈ l := by
  rw [← List.takeWhile_append_dropWhile p l]
  exact List.mem_append.mpr (Or.inr h)

theorem mem_of_mem_dropTrailing {c : Char} {l : List Char}
    (h : c ∈ dropTrailing l) : c ∈ l := by
  unfold dropTrailing at h
  rw [List.mem_reverse] at h
  have := mem_of_mem_dropWhile h
  rwa [List.mem_reverse] at this

theorem mem_of_mem_stripList {c : Char} {l : List Char}
    (h : c ∈ stripList l) : c ∈ l := by
  exact mem_of_mem_dropTrailing (mem_of_mem_dropWhile h)

theorem dropTrailing_append_eq (l : List Char) :
    dropTrailing l ++ (l.reverse.takeWhile pySpace).reverse = l := by
  unfold dropTrailing
  rw [← List.reverse_append, List.takeWhile_append_dropWhile, List.reverse_reverse]

theorem noDS_dropWhile {p : Char → Bool} {l : List Char} (h : noDS l = true) :
    noDS (l.dropWhile p) = true := by
  rw [← List.takeWhile_append_dropWhile p l] at h
  exact noDS_append_right h

theorem noDS_dropTrailing {l : List Char} (h : noDS l = true) :
    noDS (dropTrailing l) = true := by
  rw [← dropTrailing_append_eq l] at h
  exact noDS_append_left h

theorem noDS_stripList {l : List Char} (h : noDS l = true) :
    noDS (stripList l) = true :=
  noDS_dropWhile (noDS_dropTrailing h)

theorem dropWhile_cons_head {p : Char → Bool} {l t : List Char} {h : Char}
    (he : l.dropWhile p = h :: t) : p h = false := by
  induction l generalizing t with
  | nil => cases he
  | cons a ls ih =>
      by_cases ha : p a = true
      · rw [show (a :: ls).dropWhile p = ls.dropWhile p from by
          simp [List.dropWhile_cons, ha]] at he
        exact ih he
      · rw [Bool.not_eq_true] at ha
        rw [show (a :: ls).dropWhile p = a :: ls from by
          simp [List.dropWhile_cons, ha]] at he
        injection he with he1 he2
        rw [← he1]; exact ha

theorem dropWhile_dropWhile {p : Char → Bool} (l : List Char) :
    (l.dropWhile p).dropWhile p = l.dropWhile p := by
  rcases he : l.dropWhile p with _ | ⟨h, t⟩
  · rfl
  · rw [List.dropWhile_cons, dropWhile_cons_head he]
    simp

theorem stripList_idem (l : List Char) : stripList (stripList l) = stripList l := by
  show (dropTrailing ((dropTrailing l).dropWhile pySpace)).dropWhile pySpace
      = (dropTrailing l).dropWhile pySpace
  have hYrev : (dropTrailing l).reverse = l.reverse.dropWhile pySpace := by
    unfold dropTrailing; rw [List.reverse_reverse]
  generalize hY : dropTrailing l = Y at hYrev ⊢
  have hA : dropTrailing (Y.dropWhile pySpace) = Y.dropWhile pySpace := by
    show ((Y.dropWhile pySpace).reverse.dropWhile pySpace).reverse = Y.dropWhile pySpace
    rcases hr : (Y.dropWhile pySpace).reverse with _ | ⟨h, t⟩
    · have h0 := congrArg List.reverse hr
      rw [List.reverse_reverse] at h0
      rw [h0]
      rfl
    · have hsplit : Y.reverse = (Y.dropWhile pySpace).reverse ++ (Y.takeWhile pySpace).reverse := by
        conv_lhs => rw [← List.takeWhile_append_dropWhile pySpace Y]
        rw [List.reverse_append]
      have hZ : l.reverse.dropWhile pySpace = h :: (t ++ (Y.takeWhile pySpace).reverse) := by
        rw [← hYrev, hsplit, hr]
        rfl
      have hh : pySpace h = false := dropWhile_cons_head hZ
      rw [show (h :: t).dropWhile pySpace = h :: t from by simp [List.dropWhile_cons, hh]]
      rw [← hr, List.reverse_reverse]
  rw [hA, dropWhile_dropWhile]

/-! ## Characterization of `cleanChars` output -/

theorem mem_cleanChars_allowed {c : Char} {l : List Char} (h : c ∈ cleanChars l) :
    allowedChar c = true ∧ isEmojiRange c = false := by
  unfold cleanChars collapseWs at h
  have h1 := mem_of_mem_stripList h
  rcases mem_collapseAux h1 with h2 | h3
  · subst h2
    exact ⟨by decide, by decide⟩
  · have h4 := List.mem_filter.mp h3.1
    have h5 := List.mem_filter.mp h4.1
    refine ⟨h4.2, ?_⟩
    have := h5.2
    simpa using this

theorem mem_cleanChars_space {c : Char} {l : List Char} (h : c ∈ cleanChars l)
    (hs : pySpace c = true) : c = ' ' := by
  unfold cleanChars collapseWs at h
  have h1 := mem_of_mem_stripList h
  rcases mem_collapseAux h1 with h2 | h3
  · exact h2
  · rw [h3.2] at hs; cases hs

theorem noDS_cleanChars (l : List Char) : noDS (cleanChars l) = true := by
  unfold cleanChars collapseWs
  exact noDS_stripList (noDS_collapseAux _ false)

theorem cleanChars_idem (l : List Char) : cleanChars (cleanChars l) = cleanChars l := by
  have hfe : (cleanChars l).filter (fun c => !isEmojiRange c) = cleanChars l :=
    List.filter_eq_self.mpr (fun c hc => by
      rw [(mem_cleanChars_allowed hc).2]; rfl)
  have hfa : (cleanChars l).filter allowedChar = cleanChars l :=
    List.filter_eq_self.mpr (fun c hc => (mem_cleanChars_allowed hc).1)
  have hcw : collapseWs (cleanChars l) = cleanChars l := by
    unfold collapseWs
    exact collapseAux_eq_self
      (fun c hc hs => mem_cleanChars_space hc hs)
      (noDS_cleanChars l)
      (fun h => by cases h)
  have hst : stripList (cleanChars l) = cleanChars l := by
    unfold cleanChars
    exact stripList_idem _
  conv_lhs => rw [cleanChars, hfe, hfa, hcw, hst]

/-- C5: `clean_text` is idempotent — `clean(clean(x)) == clean(x)` for
every input (including the absent input `None`). -/
theorem clean_text_idem (x : Option String) :
    clean_text (some (clean_text x)) = clean_text x := by
  cases x with
  | none => rfl
  | some s =>
      by_cases hs : s = ""
      · subst hs; rfl
      · have hct : clean_text (some s) = String.mk (cleanChars s.data) := by
          simp [clean_text, hs]
        rw [hct]
        by_cases hR : cleanChars s.data = []
        · rw [hR]; rfl
        · have hne : String.mk (cleanChars s.data) ≠ "" := by
            intro hcontra
            exact hR (congrArg String.data hcontra)
          simp only [clean_text, hne, if_false]
          rw [cleanChars_idem]

/-! ## `setKey` / `getD` / `hasKey` lemmas -/

theorem getD_setKey_self (r : PyRec) (k : String) (v d : DVal) :
    getD (setKey r k v) k d = v := by
  induction r with
  | nil => simp [setKey, getD, List.find?]
  | cons p rest ih =>
      rcases p with ⟨k0, v0⟩
      by_cases hk : k0 = k
      · subst hk; simp [setKey, getD, List.find?]
      · have hk' : (k0 == k) = false := beq_eq_false_iff_ne.mpr hk
        simp only [setKey, hk', Bool.false_eq_true, if_false]
        simp only [getD, List.find?, hk']
        exact ih

theorem getD_setKey_ne (r : PyRec) {k k' : String} (v d : DVal) (hne : k' ≠ k) :
    getD (setKey r k v) k' d = getD r k' d := by
  induction r with
  | nil =>
      have h1 : (k == k') = false := beq_eq_false_iff_ne.mpr (Ne.symm hne)
      simp [setKey, getD, List.find?, h1]
  | cons p rest ih =>
      rcases p with ⟨k0, v0⟩
      by_cases hk : k0 = k
      · subst hk
        have h1 : (k0 == k0) = true := beq_self_eq_true k0
        have h2 : (k0 == k') = false := beq_eq_false_iff_ne.mpr (fun h => hne h.symm)
        simp only [setKey, h1, if_true]
        simp only [getD, List.find?, h2]
      · have hk' : (k0 == k) = false := beq_eq_false_iff_ne.mpr hk
        simp only [setKey, hk', Bool.false_eq_true, if_false]
        by_cases hk0 : k0 = k'
        · subst hk0
          have h1 : (k0 == k0) = true := beq_self_eq_true k0
          simp [getD, List.find?, h1]
        · have h1 : (k0 == k') = false := beq_eq_false_iff_ne.mpr hk0
          simp only [getD, List.find?, h1]
          exact ih

theorem hasKey_setKey_self (r : PyRec) (k : String) (v : DVal) :
    hasKey (setKey r k v) k = true := by
  induction r with
  | nil => simp [setKey, hasKey, List.find?]
  | cons p rest ih =>
      rcases p with ⟨k0, v0⟩
      by_cases hk : k0 = k
      · subst hk; simp [setKey, hasKey, List.find?]
      · have hk' : (k0 == k) = false := beq_eq_false_iff_ne.mpr hk
        simp only [setKey, hk', Bool.false_eq_true, if_false]
        simp only [hasKey, List.find?, hk']
        exact ih

theorem hasKey_setKey_ne (r : PyRec) {k k' : String} (v : DVal) (hne : k' ≠ k) :
    hasKey (setKey r k v) k' = hasKey r k' := by
  induction r with
  | nil =>
      have h1 : (k == k') = false := beq_eq_false_iff_ne.mpr (Ne.symm hne)
      simp [setKey, hasKey, List.find?, h1]
  | cons p rest ih =>
      rcases p with ⟨k0, v0⟩
      by_cases hk : k0 = k
      · subst hk
        have h1 : (k0 == k0) = true := beq_self_eq_true k0
        have h2 : (k0 == k') = false := beq_eq_false_iff_ne.mpr (fun h => hne h.symm)
        simp only [setKey, h1, if_true]
        simp only [hasKey, List.find?, h2]
      · have hk' : (k0 == k) = false := beq_eq_false_iff_ne.mpr hk
        simp only [setKey, hk', Bool.false_eq_true, if_false]
        by_cases hk0 : k0 = k'
        · subst hk0
          have h1 : (k0 == k0) = true := beq_self_eq_true k0
          simp [hasKey, List.find?, h1]
        · have h1 : (k0 == k') = false := beq_eq_false_iff_ne.mpr hk0
          simp only [hasKey, List.find?, h1]
          exact ih

theorem hasKey_setKey_of_hasKey (r : PyRec) {k k' : String} (v : DVal)
    (h : hasKey r k' = true) : hasKey (setKey r k v) k' = true := by
  by_cases hk : k' = k
  · subst hk; exact hasKey_setKey_self r k' v
  · rw [hasKey_setKey_ne r v hk]; exact h

/-! ## Field-wise behaviour of the validator's update steps -/

theorem updProduct_others (info : List (String × JVal)) (v : StructuredRecord) :
    (updProduct info v).key_point_description = v.key_point_description ∧
    (updProduct info v).key_pain_point = v.key_pain_point ∧
    (updProduct info v).sentiment = v.sentiment ∧
    (updProduct info v).test_steps = v.test_steps ∧
    (updProduct info v).env_os = v.env_os ∧
    (updProduct info v).env_software_version = v.env_software_version ∧
    (updProduct info v).env_product_model = v.env_product_model ∧
    (updProduct info v).env_other = v.env_other ∧
    (updProduct info v).extraction_error = v.extraction_error := by
  unfold updProduct
  rcases jGet info "product_or_service_name" with _ | x <;>
    exact ⟨rfl, rfl, rfl, rfl, rfl, rfl, rfl, rfl, rfl⟩

theorem updDesc_others (info : List (String × JVal)) (v : StructuredRecord) :
    (updDesc info v).product_or_service_name = v.product_or_service_name ∧
    (updDesc info v).key_pain_point = v.key_pain_point ∧
    (updDesc info v).sentiment = v.sentiment ∧
    (updDesc info v).test_steps = v.test_steps ∧
    (updDesc info v).env_os = v.env_os ∧
    (updDesc info v).env_software_version = v.env_software_version ∧
    (updDesc info v).env_product_model = v.env_product_model ∧
    (updDesc info v).env_other = v.env_other ∧
    (updDesc info v).extraction_error = v.extraction_error := by
  unfold updDesc
  rcases jGet info "key_point_description" with _ | x <;>
    exact ⟨rfl, rfl, rfl, rfl, rfl, rfl, rfl, rfl, rfl⟩

theorem updPain_others (info : List (String × JVal)) (v : StructuredRecord) :
    (updPain info v).product_or_service_name = v.product_or_service_name ∧
    (updPain info v).key_point_description = v.key_point_description ∧
    (updPain info v).sentiment = v.sentiment ∧
    (updPain info v).test_steps = v.test_steps ∧
    (updPain info v).env_os = v.env_os ∧
    (updPain info v).env_software_version = v.env_software_version ∧
    (updPain info v).env_product_model = v.env_product_model ∧
    (updPain info v).env_other = v.env_other ∧
    (updPain info v).extraction_error = v.extraction_error := by
  unfold updPain
  rcases jGet info "key_pain_point" with _ | x <;>
    exact ⟨rfl, rfl, rfl, rfl, rfl, rfl, rfl, rfl, rfl⟩

theorem updSentiment_others (info : List (String × JVal)) (v : StructuredRecord) :
    (updSentiment info v).product_or_service_name = v.product_or_service_name ∧
    (updSentiment info v).key_point_description = v.key_point_description ∧
    (updSentiment info v).key_pain_point = v.key_pain_point ∧
    (updSentiment info v).test_steps = v.test_steps ∧
    (updSentiment info v).env_os = v.env_os ∧
    (updSentiment info v).env_software_version = v.env_software_version ∧
    (updSentiment info v).env_product_model = v.env_product_model ∧
    (updSentiment info v).env_other = v.env_other ∧
    (updSentiment info v).extraction_error = v.extraction_error := by
  unfold updSentiment
  rcases jGet info "sentiment" with _ | x <;>
    exact ⟨rfl, rfl, rfl, rfl, rfl, rfl, rfl, rfl, rfl⟩

theorem updSteps_others (info : List (String × JVal)) (v : StructuredRecord) :
    (updSteps info v).product_or_service_name = v.product_or_service_name ∧
    (updSteps info v).key_point_description = v.key_point_description ∧
    (updSteps info v).key_pain_point = v.key_pain_point ∧
    (updSteps info v).sentiment = v.sentiment ∧
    (updSteps info v).env_os = v.env_os ∧
    (updSteps info v).env_software_version = v.env_software_version ∧
    (updSteps info v).env_product_model = v.env_product_model ∧
    (updSteps info v).env_other = v.env_other ∧
    (updSteps info v).extraction_error = v.extraction_error := by
  unfold updSteps
  rcases jGet info "test_steps" with _ | x
  · exact ⟨rfl, rfl, rfl, rfl, rfl, rfl, rfl, rfl, rfl⟩
  · cases x <;> exact ⟨rfl, rfl, rfl, rfl, rfl, rfl, rfl, rfl, rfl⟩

theorem updEnvFields_others (env : List (String × JVal)) (v : StructuredRecord) :
    (updEnvFields env v).product_or_service_name = v.product_or_service_name ∧
    (updEnvFields env v).key_point_description = v.key_point_description ∧
    (updEnvFields env v).key_pain_point = v.key_pain_point ∧
    (updEnvFields env v).sentiment = v.sentiment ∧
    (updEnvFields env v).test_steps = v.test_steps ∧
    (updEnvFields env v).extraction_error = v.extraction_error := by
  unfold updEnvFields
  rcases jGet env "os" with _ | a <;>
    rcases jGet env "software_version" with _ | b <;>
      rcases jGet env "product_model" with _ | c <;>
        rcases jGet env "other" with _ | d <;>
          exact ⟨rfl, rfl, rfl, rfl, rfl, rfl⟩

theorem updEnvFields_os (env : List (String × JVal)) (v : StructuredRecord) :
    (updEnvFields env v).env_os =
      match jGet env "os" with
      | some x => pyStrJ x
      | Option.none => v.env_os := by
  unfold updEnvFields
  rcases jGet env "os" with _ | a <;>
    rcases jGet env "software_version" with _ | b <;>
      rcases jGet env "product_model" with _ | c <;>
        rcases jGet env "other" with _ | d <;> rfl

theorem updEnvFields_sv (env : List (String × JVal)) (v : StructuredRecord) :
    (updEnvFields env v).env_software_version =
      match jGet env "software_version" with
      | some x => pyStrJ x
      | Option.none => v.env_software_version := by
  unfold updEnvFields
  rcases jGet env "os" with _ | a <;>
    rcases jGet env "software_version" with _ | b <;>
      rcases jGet env "product_model" with _ | c <;>
        rcases jGet env "other" with _ | d <;> rfl

theorem updEnvFields_pm (env : List (String × JVal)) (v : StructuredRecord) :
    (updEnvFields env v).env_product_model =
      match jGet env "product_model" with
      | some x => pyStrJ x
      | Option.none => v.env_product_model := by
  unfold updEnvFields
  rcases jGet env "os" with _ | a <;>
    rcases jGet env "software_version" with _ | b <;>
      rcases jGet env "product_model" with _ | c <;>
        rcases jGet env "other" with _ | d <;> rfl

theorem updEnvFields_other (env : List (String × JVal)) (v : StructuredRecord) :
    (updEnvFields env v).env_other =
      match jGet env "other" with
      | some x => pyStrJ x
      | Option.none => v.env_other := by
  unfold updEnvFields
  rcases jGet env "os" with _ | a <;>
    rcases jGet env "software_version" with _ | b <;>
      rcases jGet env "product_model" with _ | c <;>
        rcases jGet env "other" with _ | d <;> rfl

theorem updEnv_others (info : List (String × JVal)) (v : StructuredRecord) :
    (updEnv info v).product_or_service_name = v.product_or_service_name ∧
    (updEnv info v).key_point_description = v.key_point_description ∧
    (updEnv info v).key_pain_point = v.key_pain_point ∧
    (updEnv info v).sentiment = v.sentiment ∧
    (updEnv info v).test_steps = v.test_steps ∧
    (updEnv info v).extraction_error = v.extraction_error := by
  unfold updEnv
  rcases jGet info "test_environment" with _ | x
  · exact ⟨rfl, rfl, rfl, rfl, rfl, rfl⟩
  · cases x <;> try exact ⟨rfl, rfl, rfl, rfl, rfl, rfl⟩
    case obj env => exact updEnvFields_others env v

theorem updEnv_os (info : List (String × JVal)) (v : StructuredRecord) :
    (updEnv info v).env_os =
      match jGet info "test_environment" with
      | some (JVal.obj env) =>
          (match jGet env "os" with
           | some x => pyStrJ x
           | Option.none => v.env_os)
      | _ => v.env_os := by
  unfold updEnv
  rcases jGet info "test_environment" with _ | x
  · rfl
  · cases x <;> try rfl
    case obj env => exact updEnvFields_os env v

theorem updEnv_sv (info : List (String × JVal)) (v : StructuredRecord) :
    (updEnv info v).env_software_version =
      match jGet info "test_environment" with
      | some (JVal.obj env) =>
          (match jGet env "software_version" with
           | some x => pyStrJ x
           | Option.none => v.env_software_version)
      | _ => v.env_software_version := by
  unfold updEnv
  rcases jGet info "test_environment" with _ | x
  · rfl
  · cases x <;> try rfl
    case obj env => exact updEnvFields_sv env v

theorem updEnv_pm (info : List (String × JVal)) (v : StructuredRecord) :
    (updEnv info v).env_product_model =
      match jGet info "test_environment" with
      | some (JVal.obj env) =>
          (match jGet env "product_model" with
           | some x => pyStrJ x
           | Option.none => v.env_product_model)
      | _ => v.env_product_model := by
  unfold updEnv
  rcases jGet info "test_environment" with _ | x
  · rfl
  · cases x <;> try rfl
    case obj env => exact updEnvFields_pm env v

theorem updEnv_other (info : List (String × JVal)) (v : StructuredRecord) :
    (updEnv info v).env_other =
      match jGet info "test_environment" with
      | some (JVal.obj env) =>
          (match jGet env "other" with
           | some x => pyStrJ x
           | Option.none => v.env_other)
      | _ => v.env_other := by
  unfold updEnv
  rcases jGet info "test_environment" with _ | x
  · rfl
  · cases x <;> try rfl
    case obj env => exact updEnvFields_other env v

/-! ## Supporting facts about records and `process_review` -/

theorem getD_of_hasKey_false {r : PyRec} {k : String} (d : DVal)
    (h : hasKey r k = false) : getD r k d = d := by
  unfold hasKey at h
  unfold getD
  rcases hf : r.find? (fun p => p.1 == k) with _ | p
  · rw [hf]
  · rw [hf] at h; cases h

theorem stripList_append_space (l : List Char) : stripList (l ++ [' ']) = stripList l := by
  unfold stripList dropTrailing
  rw [List.reverse_append]
  simp [List.dropWhile_cons, show pySpace ' ' = true from by decide]

/-- The title and an empty body concatenate to the stripped title. -/
theorem concatenate_some_empty (t : String) :
    concatenate_review_text (some t) (some "") = pyStrip t := by
  unfold concatenate_review_text pyStrip
  have hdata : (t ++ " " ++ "").data = t.data ++ [' '] := by
    rw [String.data_append, String.data_append,
      show "".data = ([] : List Char) from rfl, show " ".data = [' '] from rfl,
      List.append_nil]
  rw [show (some t).getD "" = t from rfl, show (some "").getD "" = "" from rfl,
    hdata, stripList_append_space]

/-- Shape lemma: `process_review` returns the base record, the base record plus a
string `summary`, or the base record plus `summary = None` and a
`summary_error`, depending on the summarize branch. -/
theorem process_review_shape (summ : String → Except String String)
    (r : PyRec) (b : Bool) :
    process_review summ r b = pr_base r ∨
    (∃ s, summ (pr_cleaned r) = Except.ok s ∧
      process_review summ r b = setKey (pr_base r) "summary" (DVal.str s)) ∨
    (∃ e, summ (pr_cleaned r) = Except.error e ∧
      process_review summ r b =
        setKey (setKey (pr_base r) "summary" DVal.none) "summary_error" (DVal.str e)) := by
  have hresolved : process_review summ r b =
      (if b && !(pr_cleaned r == "") then
        match summ (pr_cleaned r) with
        | Except.ok summary => setKey (pr_base r) "summary" (DVal.str summary)
        | Except.error e =>
            setKey (setKey (pr_base r) "summary" DVal.none) "summary_error" (DVal.str e)
      else pr_base r) := rfl
  rw [hresolved]
  cases hcond : b && !(pr_cleaned r == "")
  · left; simp
  · rcases hsum : summ (pr_cleaned r) with e | s
    · right; right; exact ⟨e, rfl, by simp⟩
    · right; left; exact ⟨s, rfl, by simp⟩

theorem processLoop_eq (proc : PyRec → Except String PyRec) (l : List PyRec) :
    ∀ acc, processLoop proc acc l = acc ++ l.map (fun review =>
      match proc review with
      | Except.ok processed => processed
      | Except.error e => setKey review "processing_error" (DVal.str e)) := by
  induction l with
  | nil => intro acc; simp [processLoop]
  | cons rv rest ih =>
      intro acc
      rw [show processLoop proc acc (rv :: rest) =
        processLoop proc (acc ++ [match proc rv with
          | Except.ok processed => processed
          | Except.error e => setKey rv "processing_error" (DVal.str e)]) rest from rfl]
      rw [ih]
      simp

/-! ## The claims -/

/-- C1, counterexample: when the summarizer fails, the processed record
contains BOTH the `summary` key (set to `None`) and the `summary_error`
key, contradicting "never both". -/
theorem summary_and_summary_error_coexist :
    hasKey (process_review (fun _ => Except.error "boom")
      [("title", DVal.str "good product")] true) "summary" = true ∧
    hasKey (process_review (fun _ => Except.error "boom")
      [("title", DVal.str "good product")] true) "summary_error" = true ∧
    getD (process_review (fun _ => Except.error "boom")
      [("title", DVal.str "good product")] true) "summary" (DVal.str "") = DVal.none := by
  exact ⟨by decide, by decide, by decide⟩

/-- C1 (amended): for records not already carrying the two keys, a
string-valued `summary` and a `summary_error` are mutually exclusive: on
summarizer failure `summary_error` is attached and `summary` is set to
`None` (both keys present); whenever `summary` holds a string, no
`summary_error` is present. -/
theorem process_review_summary_string_exclusive
    (summ : String → Except String String) (r : PyRec) (b : Bool)
    (h1 : hasKey r "summary" = false) (h2 : hasKey r "summary_error" = false) :
    (hasKey (process_review summ r b) "summary_error" = true →
      hasKey (process_review summ r b) "summary" = true ∧
      getD (process_review summ r b) "summary" DVal.none = DVal.none) ∧
    (∀ s, getD (process_review summ r b) "summary" DVal.none = DVal.str s →
      hasKey (process_review summ r b) "summary_error" = false) := by
  have hbase_err : hasKey (pr_base r) "summary_error" = false := by
    unfold pr_base
    rw [hasKey_setKey_ne _ _ (by decide), hasKey_setKey_ne _ _ (by decide)]
    exact h2
  have hbase_sum : getD (pr_base r) "summary" DVal.none = DVal.none := by
    unfold pr_base
    rw [getD_setKey_ne _ _ _ (by decide), getD_setKey_ne _ _ _ (by decide)]
    exact getD_of_hasKey_false DVal.none h1
  rcases process_review_shape summ r b with h | ⟨s, hs, h⟩ | ⟨e, he, h⟩ <;> rw [h]
  · constructor
    · intro hk; rw [hbase_err] at hk; cases hk
    · intro s hgot; exact hbase_err
  · constructor
    · intro hk
      rw [hasKey_setKey_ne _ _ (by decide), hbase_err] at hk
      cases hk
    · intro s2 hgot
      rw [hasKey_setKey_ne _ _ (by decide), hbase_err]
  · constructor
    · intro hk
      refine ⟨?_, ?_⟩
      · exact hasKey_setKey_of_hasKey _ _ (hasKey_setKey_self _ _ _)
      · rw [getD_setKey_ne _ _ _ (by decide), getD_setKey_self]
    · intro s2 hgot
      rw [getD_setKey_ne _ _ _ (by decide), getD_setKey_self] at hgot
      cases hgot

/-- C1 witness for the amended theorem, at a record without the two keys
and a failing summarizer. -/
theorem process_review_summary_string_exclusive_witness :
    hasKey [("id", DVal.str "x")] "summary" = false ∧
    (hasKey (process_review (fun _ => Except.error "down")
        [("id", DVal.str "x")] true) "summary_error" = true →
      hasKey (process_review (fun _ => Except.error "down")
        [("id", DVal.str "x")] true) "summary" = true ∧
      getD (process_review (fun _ => Except.error "down")
        [("id", DVal.str "x")] true) "summary" DVal.none = DVal.none) ∧
    (∀ s, getD (process_review (fun _ => Except.error "down")
        [("id", DVal.str "x")] true) "summary" DVal.none = DVal.str s →
      hasKey (process_review (fun _ => Except.error "down")
        [("id", DVal.str "x")] true) "summary_error" = false) := by
  refine ⟨by decide, ?_⟩
  exact process_review_summary_string_exclusive (fun _ => Except.error "down")
    [("id", DVal.str "x")] true (by decide) (by decide)

/-- C2, counterexample: on response `x{ab}` the brace-delimited substring
`{ab}` exists and fails to parse, the whole response would parse
successfully, yet `extract_structured_info` reports the parse error — the
whole-response parse is never attempted after a substring parse failure. -/
theorem extract_error_despite_whole_parse :
    jsonSlice (pyStrip "x\x7bab\x7d") = some "\x7bab\x7d" ∧
    parseStub "\x7bab\x7d" = Except.error "bad" ∧
    parseStub "x\x7bab\x7d" = Except.ok [] ∧
    (_validate_structured_info []).extraction_error = Option.none ∧
    (extract_structured_info parseStub "s" (Except.ok "x\x7bab\x7d")).extraction_error
      = some "JSON parsing error: bad" := by
  exact ⟨rfl, rfl, rfl, rfl, rfl⟩

/-- C2 (amended): when the brace-delimited substring exists but fails to
parse, `extract_structured_info` falls back directly to the default
record with an `extraction_error`; the entire raw response is parsed only
when the substring is missing. -/
theorem extract_slice_parse_failure_falls_back
    (parse : String → Except String (List (String × JVal)))
    (summary raw json_str msg : String)
    (h1 : ¬(pyStrip summary = "")) (h2 : jsonSlice (pyStrip raw) = some json_str)
    (h3 : parse json_str = Except.error msg) :
    extract_structured_info parse summary (Except.ok raw) =
      { _get_empty_structured_info with
          extraction_error := some ("JSON parsing error: " ++ msg) } := by
  unfold extract_structured_info
  rw [if_neg h1]
  show (match jsonSlice (pyStrip raw) with
    | some json_str =>
        (match parse json_str with
         | Except.ok info => _validate_structured_info info
         | Except.error msg =>
             { _get_empty_structured_info with
                 extraction_error := some ("JSON parsing error: " ++ msg) })
    | Option.none =>
        (match parse (pyStrip raw) with
         | Except.ok info => _validate_structured_info info
         | Except.error msg =>
             { _get_empty_structured_info with
                 extraction_error := some ("JSON parsing error: " ++ msg) })) = _
  rw [h2]
  show (match parse json_str with
    | Except.ok info => _validate_structured_info info
    | Except.error msg =>
        { _get_empty_structured_info with
            extraction_error := some ("JSON parsing error: " ++ msg) }) = _
  rw [h3]

/-- C2 witness for the amended theorem, at the stub parser and the
response `x{ab}`. -/
theorem extract_slice_parse_failure_falls_back_witness :
    ¬(pyStrip "s" = "") ∧
    extract_structured_info parseStub "s" (Except.ok "x\x7bab\x7d") =
      { _get_empty_structured_info with
          extraction_error := some ("JSON parsing error: " ++ "bad") } := by
  refine ⟨by decide, ?_⟩
  exact extract_slice_parse_failure_falls_back parseStub "s" "x\x7bab\x7d"
    "\x7bab\x7d" "bad" (by decide) rfl rfl

/-- C3: for non-blank input and a successful endpoint call, the summary is
the rejoining of a prefix of the trimmed non-blank lines of the raw
response, of length at most `max_lines`. -/
theorem summarize_clamps_to_first_nonblank_lines (text : String) (maxLines : Nat)
    (raw : String) (h : ¬(pyStrip text = "")) :
    ∃ L t, nonBlankTrimmedLines raw = L ++ t ∧ L.length ≤ maxLines ∧
      summarize_with_ollama text maxLines (Except.ok raw) =
        Except.ok (String.intercalate "\n" L) := by
  refine ⟨((splitNl (pyStrip raw)).take maxLines).filterMap (fun line =>
      let t := pyStrip line
      if t = "" then Option.none else some t),
    ((splitNl (pyStrip raw)).drop maxLines).filterMap (fun line =>
      let t := pyStrip line
      if t = "" then Option.none else some t), ?_, ?_, ?_⟩
  · unfold nonBlankTrimmedLines
    conv_lhs => rw [← List.take_append_drop maxLines (splitNl (pyStrip raw))]
    rw [List.filterMap_append]
  · calc (((splitNl (pyStrip raw)).take maxLines).filterMap _).length
        ≤ ((splitNl (pyStrip raw)).take maxLines).length := List.length_filterMap_le _ _
      _ ≤ maxLines := List.length_take_le _ _
  · unfold summarize_with_ollama
    rw [if_neg h]
    rfl

/-- C3 witness: a concrete response with a blank second line. -/
theorem summarize_clamps_to_first_nonblank_lines_witness :
    ¬(pyStrip "hi" = "") ∧
    (∃ L t, nonBlankTrimmedLines "A\n\nB\nC" = L ++ t ∧ L.length ≤ 2 ∧
      summarize_with_ollama "hi" 2 (Except.ok "A\n\nB\nC") =
        Except.ok (String.intercalate "\n" L)) := by
  refine ⟨by decide, ?_⟩
  exact summarize_clamps_to_first_nonblank_lines "hi" 2 "A\n\nB\nC" (by decide)

/-- C4, counterexample: `clean_text` keeps the underscore (it is a regex
word character), yet the underscore is not a letter or digit, not
whitespace and not one of the kept punctuation marks. -/
theorem clean_text_keeps_underscore :
    clean_text (some "_") = "_" ∧
    pyAlnum '_' = false ∧ pySpace '_' = false ∧ keptPunct '_' = false := by
  exact ⟨by decide, by decide, by decide, by decide⟩

/-- C4 (amended): every character of `clean_text` output is a word
character (Unicode letter or digit, or the underscore), whitespace, or one
of the punctuation marks kept by the filter. -/
theorem clean_text_output_chars (t : Option String) (c : Char)
    (hc : c ∈ (clean_text t).data) :
    pyWordChar c = true ∨ pySpace c = true ∨ keptPunct c = true := by
  have hall : allowedChar c = true := by
    cases t with
    | none => simp [clean_text] at hc
    | some s =>
        by_cases hs : s = ""
        · subst hs; simp [clean_text] at hc
        · simp only [clean_text, hs, if_false] at hc
          exact (mem_cleanChars_allowed hc).1
  exact or_assoc.mp (by simpa [allowedChar, Bool.or_eq_true] using hall)

/-- C4 witness for the amended theorem at a concrete cleaned character. -/
theorem clean_text_output_chars_witness :
    'a' ∈ (clean_text (some "ab")).data ∧
    (pyWordChar 'a' = true ∨ pySpace 'a' = true ∨ keptPunct 'a' = true) := by
  refine ⟨by decide, ?_⟩
  exact clean_text_output_chars (some "ab") 'a' (by decide)

/-- C6: an empty or whitespace-only summary short-circuits the extractor
to the default-populated record — independent of parser and endpoint
(never contacted) — with the documented default field values and no
`extraction_error`. -/
theorem extract_empty_summary_default
    (parse : String → Except String (List (String × JVal)))
    (summary : String) (response : Except String String)
    (h : pyStrip summary = "") :
    extract_structured_info parse summary response = _get_empty_structured_info ∧
    _get_empty_structured_info.product_or_service_name = "Not specified" ∧
    _get_empty_structured_info.sentiment = "Unknown" ∧
    _get_empty_structured_info.test_steps = [] ∧
    _get_empty_structured_info.env_os = "Not specified" ∧
    _get_empty_structured_info.env_software_version = "Not specified" ∧
    _get_empty_structured_info.env_product_model = "Not specified" ∧
    _get_empty_structured_info.env_other = "Not specified" ∧
    _get_empty_structured_info.extraction_error = Option.none := by
  refine ⟨?_, rfl, rfl, rfl, rfl, rfl, rfl, rfl, rfl⟩
  unfold extract_structured_info
  rw [if_pos h]

/-- C6 witness at a whitespace-only summary. -/
theorem extract_empty_summary_default_witness :
    pyStrip "  " = "" ∧
    extract_structured_info (fun _ => Except.ok []) "  " (Except.ok "x")
      = _get_empty_structured_info := by
  refine ⟨rfl, ?_⟩
  exact (extract_empty_summary_default (fun _ => Except.ok []) "  "
    (Except.ok "x") rfl).1

/-- C7: `_validate_structured_info` always yields a fully-shaped record:
each scalar field is the stringification of the value at its key when
present and the documented default otherwise; `test_steps` is element-wise
stringified for a list, wrapped for any other present value, empty when
absent; each `test_environment` field is copied (stringified) only from
its recognized key inside a present mapping, so unrecognized keys are
ignored; no `extraction_error` is ever attached. -/
theorem validate_structured_info_characterization (info : List (String × JVal)) :
    (_validate_structured_info info).product_or_service_name =
      (match jGet info "product_or_service_name" with
       | some x => pyStrJ x
       | Option.none => "Not specified") ∧
    (_validate_structured_info info).key_point_description =
      (match jGet info "key_point_description" with
       | some x => pyStrJ x
       | Option.none => "") ∧
    (_validate_structured_info info).key_pain_point =
      (match jGet info "key_pain_point" with
       | some x => pyStrJ x
       | Option.none => "") ∧
    (_validate_structured_info info).sentiment =
      (match jGet info "sentiment" with
       | some x => pyStrJ x
       | Option.none => "Unknown") ∧
    (_validate_structured_info info).test_steps =
      (match jGet info "test_steps" with
       | some (JVal.arr xs) => xs.map pyStrJ
       | some x => [pyStrJ x]
       | Option.none => []) ∧
    (_validate_structured_info info).env_os =
      (match jGet info "test_environment" with
       | some (JVal.obj env) =>
           (match jGet env "os" with
            | some x => pyStrJ x
            | Option.none => "Not specified")
       | _ => "Not specified") ∧
    (_validate_structured_info info).env_software_version =
      (match jGet info "test_environment" with
       | some (JVal.obj env) =>
           (match jGet env "software_version" with
            | some x => pyStrJ x
            | Option.none => "Not specified")
       | _ => "Not specified") ∧
    (_validate_structured_info info).env_product_model =
      (match jGet info "test_environment" with
       | some (JVal.obj env) =>
           (match jGet env "product_model" with
            | some x => pyStrJ x
            | Option.none => "Not specified")
       | _ => "Not specified") ∧
    (_validate_structured_info info).env_other =
      (match jGet info "test_environment" with
       | some (JVal.obj env) =>
           (match jGet env "other" with
            | some x => pyStrJ x
            | Option.none => "Not specified")
       | _ => "Not specified") ∧
    (_validate_structured_info info).extraction_error = Option.none := by
  refine ⟨?_, ?_, ?_, ?_, ?_, ?_, ?_, ?_, ?_, ?_⟩
  · unfold _validate_structured_info
    rw [(updEnv_others _ _).1, (updSteps_others _ _).1, (updSentiment_others _ _).1,
      (updPain_others _ _).1, (updDesc_others _ _).1]
    rcases h : jGet info "product_or_service_name" with _ | x <;>
      simp [updProduct, h, _get_empty_structured_info]
  · unfold _validate_structured_info
    rw [(updEnv_others _ _).2.1, (updSteps_others _ _).2.1, (updSentiment_others _ _).2.1,
      (updPain_others _ _).2.1]
    rcases h : jGet info "key_point_description" with _ | x <;>
      simp [updDesc, h, (updProduct_others _ _).1, _get_empty_structured_info]
  · unfold _validate_structured_info
    rw [(updEnv_others _ _).2.2.1, (updSteps_others _ _).2.2.1,
      (updSentiment_others _ _).2.2.1]
    rcases h : jGet info "key_pain_point" with _ | x <;>
      simp [updPain, h, (updDesc_others _ _).2.1, (updProduct_others _ _).2.1,
        _get_empty_structured_info]
  · unfold _validate_structured_info
    rw [(updEnv_others _ _).2.2.2.1, (updSteps_others _ _).2.2.2.1]
    rcases h : jGet info "sentiment" with _ | x <;>
      simp [updSentiment, h, (updPain_others _ _).2.2.1, (updDesc_others _ _).2.2.1,
        (updProduct_others _ _).2.2.1, _get_empty_structured_info]
  · unfold _validate_structured_info
    rw [(updEnv_others _ _).2.2.2.2.1]
    rcases h : jGet info "test_steps" with _ | x
    · simp [updSteps, h, (updSentiment_others _ _).2.2.2.1, (updPain_others _ _).2.2.2.1,
        (updDesc_others _ _).2.2.2.1, (updProduct_others _ _).2.2.2.1,
        _get_empty_structured_info]
    · cases x <;> simp [updSteps, h]
  · unfold _validate_structured_info
    rw [updEnv_os]
    have hV : (updSteps info (updSentiment info (updPain info (updDesc info
        (updProduct info _get_empty_structured_info))))).env_os = "Not specified" := by
      rw [(updSteps_others _ _).2.2.2.2.1, (updSentiment_others _ _).2.2.2.2.1,
        (updPain_others _ _).2.2.2.2.1, (updDesc_others _ _).2.2.2.2.1,
        (updProduct_others _ _).2.2.2.2.1]
      rfl
    rw [hV]
  · unfold _validate_structured_info
    rw [updEnv_sv]
    have hV : (updSteps info (updSentiment info (updPain info (updDesc info
        (updProduct info _get_empty_structured_info))))).env_software_version
        = "Not specified" := by
      rw [(updSteps_others _ _).2.2.2.2.2.1, (updSentiment_others _ _).2.2.2.2.2.1,
        (updPain_others _ _).2.2.2.2.2.1, (updDesc_others _ _).2.2.2.2.2.1,
        (updProduct_others _ _).2.2.2.2.2.1]
      rfl
    rw [hV]
  · unfold _validate_structured_info
    rw [updEnv_pm]
    have hV : (updSteps info (updSentiment info (updPain info (updDesc info
        (updProduct info _get_empty_structured_info))))).env_product_model
        = "Not specified" := by
      rw [(updSteps_others _ _).2.2.2.2.2.2.1, (updSentiment_others _ _).2.2.2.2.2.2.1,
        (updPain_others _ _).2.2.2.2.2.2.1, (updDesc_others _ _).2.2.2.2.2.2.1,
        (updProduct_others _ _).2.2.2.2.2.2.1]
      rfl
    rw [hV]
  · unfold _validate_structured_info
    rw [updEnv_other]
    have hV : (updSteps info (updSentiment info (updPain info (updDesc info
        (updProduct info _get_empty_structured_info))))).env_other = "Not specified" := by
      rw [(updSteps_others _ _).2.2.2.2.2.2.2.1, (updSentiment_others _ _).2.2.2.2.2.2.2.1,
        (updPain_others _ _).2.2.2.2.2.2.2.1, (updDesc_others _ _).2.2.2.2.2.2.2.1,
        (updProduct_others _ _).2.2.2.2.2.2.2.1]
      rfl
    rw [hV]
  · unfold _validate_structured_info
    rw [(updEnv_others _ _).2.2.2.2.2, (updSteps_others _ _).2.2.2.2.2.2.2.2,
      (updSentiment_others _ _).2.2.2.2.2.2.2.2, (updPain_others _ _).2.2.2.2.2.2.2.2,
      (updDesc_others _ _).2.2.2.2.2.2.2.2, (updProduct_others _ _).2.2.2.2.2.2.2.2]
    rfl

/-- C8: batch processing emits exactly one record per input, in input
order: the per-record result when `process_review` returns, and the
original record augmented with `processing_error` when it raises; a
failure never aborts the remaining records. -/
theorem process_multiple_reviews_map (proc : PyRec → Except String PyRec)
    (reviews : List PyRec) :
    process_multiple_reviews proc reviews = reviews.map (fun review =>
      match proc review with
      | Except.ok processed => processed
      | Except.error e => setKey review "processing_error" (DVal.str e)) ∧
    (process_multiple_reviews proc reviews).length = reviews.length := by
  have h := processLoop_eq proc reviews []
  have h1 : process_multiple_reviews proc reviews = reviews.map (fun review =>
      match proc review with
      | Except.ok processed => processed
      | Except.error e => setKey review "processing_error" (DVal.str e)) := by
    unfold process_multiple_reviews
    simpa using h
  exact ⟨h1, by rw [h1, List.length_map]⟩

/-- C9, counterexample: a raw record that already carries a
`cleaned_text` field has its value overwritten by `process_review`, so
not every original key/value pair survives unchanged. -/
theorem process_review_overwrites_reserved_key :
    getD (process_review (fun _ => Except.ok "") [("cleaned_text", DVal.str "orig")] false)
      "cleaned_text" (DVal.str "d") = DVal.str "" ∧
    getD [(("cleaned_text" : String), DVal.str "orig")] "cleaned_text" (DVal.str "d")
      = DVal.str "orig" := by
  exact ⟨by decide, by decide⟩

/-- C9 (amended): the pipeline never drops an original key, and every
original key/value pair outside the reserved pipeline output keys
(`concatenated_text`, `cleaned_text`, `summary`, `summary_error`, and
`processing_error` for the batch fallback) is preserved unchanged, both
by `process_review` and by the batch `processing_error` fallback. -/
theorem pipeline_preserves_original_fields (summ : String → Except String String)
    (r : PyRec) (b : Bool) (k : String) (d : DVal) (e : String) :
    (hasKey r k = true → hasKey (process_review summ r b) k = true) ∧
    (k ∉ (["concatenated_text", "cleaned_text", "summary", "summary_error"] : List String) →
      getD (process_review summ r b) k d = getD r k d) ∧
    (hasKey r k = true → hasKey (setKey r "processing_error" (DVal.str e)) k = true) ∧
    (k ≠ "processing_error" → getD (setKey r "processing_error" (DVal.str e)) k d = getD r k d) := by
  refine ⟨?_, ?_, ?_, ?_⟩
  · intro hk
    rcases process_review_shape summ r b with h | ⟨s, hs, h⟩ | ⟨e2, he, h⟩ <;> rw [h] <;>
      unfold pr_base
    · exact hasKey_setKey_of_hasKey _ _ (hasKey_setKey_of_hasKey _ _ hk)
    · exact hasKey_setKey_of_hasKey _ _
        (hasKey_setKey_of_hasKey _ _ (hasKey_setKey_of_hasKey _ _ hk))
    · exact hasKey_setKey_of_hasKey _ _ (hasKey_setKey_of_hasKey _ _
        (hasKey_setKey_of_hasKey _ _ (hasKey_setKey_of_hasKey _ _ hk)))
  · intro hnot
    simp only [List.mem_cons, List.not_mem_nil, or_false, not_or] at hnot
    obtain ⟨hne1, hne2, hne3, hne4⟩ := hnot
    rcases process_review_shape summ r b with h | ⟨s, hs, h⟩ | ⟨e2, he, h⟩ <;> rw [h] <;>
      unfold pr_base
    · rw [getD_setKey_ne _ _ _ hne2, getD_setKey_ne _ _ _ hne1]
    · rw [getD_setKey_ne _ _ _ hne3, getD_setKey_ne _ _ _ hne2, getD_setKey_ne _ _ _ hne1]
    · rw [getD_setKey_ne _ _ _ hne4, getD_setKey_ne _ _ _ hne3,
        getD_setKey_ne _ _ _ hne2, getD_setKey_ne _ _ _ hne1]
  · intro hk
    exact hasKey_setKey_of_hasKey _ _ hk
  · intro hne
    rw [getD_setKey_ne _ _ _ hne]

/-- C9 witness for the amended theorem: the passthrough field `score`
survives both the normal path and the fallback. -/
theorem pipeline_preserves_original_fields_witness :
    hasKey [("score", DVal.int 5)] "score" = true ∧
    (hasKey [("score", DVal.int 5)] "score" = true →
      hasKey (process_review (fun _ => Except.ok "s") [("score", DVal.int 5)] true)
        "score" = true) ∧
    (("score" : String) ∉
        (["concatenated_text", "cleaned_text", "summary", "summary_error"] : List String) →
      getD (process_review (fun _ => Except.ok "s") [("score", DVal.int 5)] true)
        "score" DVal.none = getD [(("score" : String), DVal.int 5)] "score" DVal.none) := by
  refine ⟨by decide, ?_, ?_⟩
  · exact fun hk => (pipeline_preserves_original_fields (fun _ => Except.ok "s")
      [("score", DVal.int 5)] true "score" DVal.none "x").1 hk
  · exact fun hn => (pipeline_preserves_original_fields (fun _ => Except.ok "s")
      [("score", DVal.int 5)] true "score" DVal.none "x").2.1 hn

/-- C10: `process_review` reads the body only from `selftext`; when that
key is absent (as for retrieved comments, whose text is under `body`), the
concatenated text is the stripped title alone and the cleaned text is its
cleaning. -/
theorem process_review_ignores_body_key (summ : String → Except String String)
    (r : PyRec) (b : Bool) (h : hasKey r "selftext" = false) :
    getD (process_review summ r b) "concatenated_text" (DVal.str "") =
      DVal.str (pyStrip (pyOrEmpty (getD r "title" (DVal.str "")))) ∧
    getD (process_review summ r b) "cleaned_text" (DVal.str "") =
      DVal.str (clean_text (some (pyStrip (pyOrEmpty (getD r "title" (DVal.str "")))))) := by
  have hbody : getD r "selftext" (DVal.str "") = DVal.str "" :=
    getD_of_hasKey_false (DVal.str "") h
  have hconcat : pr_concat r = pyStrip (pyOrEmpty (getD r "title" (DVal.str ""))) := by
    unfold pr_concat
    rw [hbody, show pyOrEmpty (DVal.str "") = "" from rfl, concatenate_some_empty]
  have hct : getD (pr_base r) "concatenated_text" (DVal.str "") = DVal.str (pr_concat r) := by
    unfold pr_base
    rw [getD_setKey_ne _ _ _ (by decide), getD_setKey_self]
  have hcl : getD (pr_base r) "cleaned_text" (DVal.str "") = DVal.str (pr_cleaned r) := by
    unfold pr_base
    rw [getD_setKey_self]
  rcases process_review_shape summ r b with hsh | ⟨s, hs, hsh⟩ | ⟨e2, he, hsh⟩ <;> rw [hsh] <;>
    constructor
  · rw [hct, hconcat]
  · rw [hcl]
    unfold pr_cleaned
    rw [hconcat]
  · rw [getD_setKey_ne _ _ _ (by decide), hct, hconcat]
  · rw [getD_setKey_ne _ _ _ (by decide), hcl]
    unfold pr_cleaned
    rw [hconcat]
  · rw [getD_setKey_ne _ _ _ (by decide), getD_setKey_ne _ _ _ (by decide), hct, hconcat]
  · rw [getD_setKey_ne _ _ _ (by decide), getD_setKey_ne _ _ _ (by decide), hcl]
    unfold pr_cleaned
    rw [hconcat]

/-- C10 witness: a comment-shaped record (text under `body`, no
`selftext`) is processed from the title alone. -/
theorem process_review_ignores_body_key_witness :
    hasKey [("id", DVal.str "c1"), ("title", DVal.str "Great"),
      ("body", DVal.str "long text")] "selftext" = false ∧
    (getD (process_review (fun _ => Except.ok "s")
        [("id", DVal.str "c1"), ("title", DVal.str "Great"),
          ("body", DVal.str "long text")] true) "concatenated_text" (DVal.str "") =
      DVal.str (pyStrip (pyOrEmpty (getD
        [("id", DVal.str "c1"), ("title", DVal.str "Great"),
          ("body", DVal.str "long text")] "title" (DVal.str "")))) ∧
    getD (process_review (fun _ => Except.ok "s")
        [("id", DVal.str "c1"), ("title", DVal.str "Great"),
          ("body", DVal.str "long text")] true) "cleaned_text" (DVal.str "") =
      DVal.str (clean_text (some (pyStrip (pyOrEmpty (getD
        [("id", DVal.str "c1"), ("title", DVal.str "Great"),
          ("body", DVal.str "long text")] "title" (DVal.str ""))))))) := by
  refine ⟨by decide, ?_⟩
  exact process_review_ignores_body_key (fun _ => Except.ok "s")
    [("id", DVal.str "c1"), ("title", DVal.str "Great"),
      ("body", DVal.str "long text")] true (by decide)

end ReviewProc
